/-
Verification development for the Product Manual Bot retrieval engine.

The Python sources are shallowly embedded as Lean definitions:

* app/services/vector_service.py   → namespace VectorService
* app/services/rag_service.py      → namespace RAGService
* app/api/v1/chat.py               → namespace ChatAPI
* app/services/ingestion_service.py→ namespace Ingestion
* app/api/v1/ingestion.py          → namespace IngestionAPI

UUIDs are modelled as naturals, embeddings as lists of rationals, the
cosine-distance operator of the database as an arbitrary function
dist : List Rat → Rat (the query embedding is folded into dist), JSONB
values as optional strings.  Whatever a Python method can raise is
returned through an explicit error type.
-/
import Mathlib

namespace PyStr

/-- Python strings are modelled as character lists.  leadsWith sep xs
decides whether sep is an initial segment of xs. -/
def leadsWith : List Char → List Char → Bool
  | [], _ => true
  | _ :: _, [] => false
  | a :: as, b :: bs => a = b && leadsWith as bs

/-- str.endswith of Python. -/
def endsWithL (s suffix : List Char) : Bool :=
  leadsWith suffix.reverse s.reverse

/-- str.lower of Python (ASCII case folding). -/
def lowerChars (s : List Char) : List Char := s.map Char.toLower

end PyStr

namespace VectorService

/-- A row of the parent_chunks table. -/
structure ParentRow where
  id : Nat
  document_name : String
  content : String
  page_number : Option Int
  section_title : Option String
  metadata : Option String
deriving DecidableEq, Repr

/-- A row of the child_chunks table. -/
structure ChildRow where
  id : Nat
  parent_id : Nat
  content : String
  embedding : List Rat
  metadata : Option String
deriving DecidableEq, Repr

/-- The database state: contents of the two tables. -/
structure Store where
  parents : List ParentRow
  children : List ChildRow
deriving DecidableEq, Repr

/-- One element of the list returned by retrieve_parent_chunks. -/
structure RetrievedChunk where
  id : Nat
  document_name : String
  content : String
  page_number : Option Int
  section_title : Option String
  metadata : Option String
  similarity : Rat
deriving DecidableEq, Repr

/-- Insertion step of the sort modelling the SQL ORDER BY. -/
def insertSorted (le : α → α → Bool) (x : α) : List α → List α
  | [] => [x]
  | y :: ys => if le x y then x :: y :: ys else y :: insertSorted le x ys

/-- Sort modelling the SQL ORDER BY (insertion sort; a total preorder le). -/
def sortBy (le : α → α → Bool) : List α → List α
  | [] => []
  | x :: xs => insertSorted le x (sortBy le xs)

/-- SELECT DISTINCT ON (key ...) over an ordered row list: keep the
first row of each key group, walking the list with the set of keys
already emitted. -/
def distinctByAux (key : α → Nat) : List α → List Nat → List α
  | [], _ => []
  | x :: xs, seen =>
    if key x ∈ seen then distinctByAux key xs seen
    else x :: distinctByAux key xs (key x :: seen)

/-- SELECT DISTINCT ON (key ...): keep the first row of each key group. -/
def distinctBy (key : α → Nat) (l : List α) : List α :=
  distinctByAux key l []

/-- The FROM/JOIN clause of retrieve_parent_chunks:
child_chunks c JOIN parent_chunks p ON c.parent_id = p.id. -/
def joinedRows (st : Store) : List (ParentRow × ChildRow) :=
  st.children.flatMap fun c =>
    (st.parents.filter fun p => p.id = c.parent_id).map fun p => (p, c)

/-- The comparison of ORDER BY p.id, c.embedding <=> query. -/
def rowLE (dist : List Rat → Rat) (a b : ParentRow × ChildRow) : Bool :=
  decide (a.1.id < b.1.id) ||
    (decide (a.1.id = b.1.id) && decide (dist a.2.embedding ≤ dist b.2.embedding))

/-- VectorService.retrieve_parent_chunks: the SQL
SELECT DISTINCT ON (p.id) ... ORDER BY p.id, c.embedding <=> q LIMIT k,
with similarity = 1 - (c.embedding <=> q), followed by the Python loop
building the result dicts.  dist e is the cosine distance of child
embedding e from the query embedding. -/
def retrieveParentChunks (st : Store) (dist : List Rat → Rat) (top_k : Nat) :
    List RetrievedChunk :=
  let sorted := sortBy (rowLE dist) (joinedRows st)
  let rows := (distinctBy (fun r => r.1.id) sorted).take top_k
  rows.map fun r =>
    { id := r.1.id
      document_name := r.1.document_name
      content := r.1.content
      page_number := r.1.page_number
      section_title := r.1.section_title
      metadata := r.1.metadata
      similarity := 1 - dist r.2.embedding }

/-- VectorService.store_parent_chunk body: INSERT ... ON CONFLICT (id)
DO UPDATE SET content = EXCLUDED.content, metadata = EXCLUDED.metadata.
Only content and metadata are replaced on conflict; the other columns of
the existing row keep their values. -/
def upsertParent (st : List ParentRow) (row : ParentRow) : List ParentRow :=
  if st.any fun r => r.id = row.id then
    st.map fun r =>
      if r.id = row.id then { r with content := row.content, metadata := row.metadata } else r
  else
    st ++ [row]

/-- The kinds of Python exception an embedded method can surface. -/
inductive PyError
  | runtimeError (msg : String)
  | attributeError (msg : String)
  | storeError (msg : String)
  | capabilityError (msg : String)
deriving DecidableEq, Repr

/-- Message of the AttributeError raised by Python when a method is
called on a service whose pool is still None (self.pool.acquire()). -/
def noneTypeMsg : String := "NoneType object has no attribute acquire"

/-- The mutable attributes of a VectorService instance set by
initialize(): whether the asyncpg pool exists, and the optional
embedding capability (embed_many on a list of texts, which may fail). -/
structure Service where
  pool : Bool
  embeddings : Option (List String → Except String (List (List Rat)))

/-- VectorService.store_parent_chunk as called on a service instance.
The method performs no initialization check of its own: with no pool it
dies on the attribute access self.pool.acquire.  Returns the error (if
any) together with the visible table state afterwards. -/
def storeParentChunkCall (svc : Service) (st : List ParentRow) (row : ParentRow) :
    Option PyError × List ParentRow :=
  if svc.pool then (none, upsertParent st row)
  else (some (.attributeError noneTypeMsg), st)

/-- Sequential execution of the INSERT statements of the child-batch
transaction.  failAt = some i means the i-th INSERT raises; the result
is the batch actually written inside the transaction, or none when the
transaction aborted partway. -/
def runInserts : List ChildRow → Nat → Option Nat → Option (List ChildRow)
  | [], _, _ => some []
  | r :: rs, i, failAt =>
    if failAt = some i then none
    else (runInserts rs (i + 1) failAt).map fun ws => r :: ws

/-- The rows the child batch is meant to create: ids come from the
database (gen_random_uuid, modelled by freshIds), contents and
embeddings are zipped as in the Python loop. -/
def childBatchRows (parent_id : Nat) (metadata : Option String)
    (freshIds : List Nat) (chunks : List String) (embs : List (List Rat)) :
    List ChildRow :=
  (freshIds.zip (chunks.zip embs)).map fun t =>
    { id := t.1, parent_id := parent_id, content := t.2.1,
      embedding := t.2.2, metadata := metadata }

/-- VectorService.store_child_chunks: check the embedding capability,
embed all chunks, then insert every row inside one transaction; an
aborted transaction is rolled back by the database, so the caller then
observes the unchanged store. -/
def storeChildChunksCall (svc : Service) (st : Store) (parent_id : Nat)
    (child_chunks : List String) (metadata : Option String)
    (freshIds : List Nat) (failAt : Option Nat) : Option PyError × Store :=
  match svc.embeddings with
  | none => (some (.runtimeError "Embeddings not initialized"), st)
  | some embed =>
    match embed child_chunks with
    | .error e => (some (.capabilityError e), st)
    | .ok embs =>
      if svc.pool then
        match runInserts (childBatchRows parent_id metadata freshIds child_chunks embs) 0 failAt with
        | none => (some (.storeError "insert failed, transaction rolled back"), st)
        | some written => (none, { st with children := st.children ++ written })
      else (some (.attributeError noneTypeMsg), st)

/-- VectorService.retrieve_parent_chunks as called on a service
instance: the embedding capability is checked first (RuntimeError), the
pool is not (AttributeError on self.pool.acquire when missing). -/
def retrieveCall (svc : Service) (st : Store) (dist : List Rat → Rat) (top_k : Nat) :
    Option PyError × List RetrievedChunk :=
  match svc.embeddings with
  | none => (some (.runtimeError "Embeddings not initialized"), [])
  | some _ =>
    if svc.pool then (none, retrieveParentChunks st dist top_k)
    else (some (.attributeError noneTypeMsg), [])

/-- DELETE FROM parent_chunks WHERE document_name = $1, with the ON
DELETE CASCADE of child_chunks.parent_id. -/
def deleteDocumentRows (st : Store) (document_name : String) : Store :=
  let keep := st.parents.filter fun p => p.document_name ≠ document_name
  { parents := keep
    children := st.children.filter fun c => keep.any fun p => p.id = c.parent_id }

/-- VectorService.delete_document as called on a service instance: no
initialization check, so a missing pool raises AttributeError. -/
def deleteDocumentCall (svc : Service) (st : Store) (document_name : String) :
    Option PyError × Store :=
  if svc.pool then (none, deleteDocumentRows st document_name)
  else (some (.attributeError noneTypeMsg), st)

/-- A completely uninitialized service: initialize() was never run. -/
def uninitService : Service := { pool := false, embeddings := none }

end VectorService

namespace RAGService

open VectorService

/-- One entry of the sources list assembled by the RAG service. -/
structure Source where
  document_name : String
  page_number : Option Int
  section_title : Option String
  similarity : Rat
deriving DecidableEq, Repr

/-- The source_info dict built from one retrieved chunk. -/
def mkSource (c : RetrievedChunk) : Source :=
  { document_name := c.document_name
    page_number := c.page_number
    section_title := c.section_title
    similarity := c.similarity }

/-- The sources list RAGService.generate_stream builds from the
retrieved chunks.  The streaming code constructs this list but never
yields it: every yield of the generator carries an empty sources list. -/
def collectSources (retrieved : List RetrievedChunk) : List Source :=
  retrieved.map mkSource

/-- The fallback answer yielded when retrieval is empty (the apostrophe
of the original string literal is elided). -/
def fallbackMessage : List Char :=
  "I could not find relevant information in the documentation for your question.".data

/-- The dedup loop of generate_stream: empty fragments are skipped, a
fragment that is a suffix of the buffered text is skipped, anything
else is appended to the buffer and yielded with an empty sources list. -/
def dedupYields : List (List Char) → List Char → List (List Char × List Source)
  | [], _ => []
  | c :: cs, buf =>
    if c = [] then dedupYields cs buf
    else if PyStr.endsWithL buf c then dedupYields cs buf
    else (c, []) :: dedupYields cs (buf ++ c)

/-- RAGService.generate_stream: the sequence of (text_chunk, sources)
pairs the async generator yields, given the retrieval result and the
raw fragments produced by the language model chain. -/
def generateStream (retrieved : List RetrievedChunk) (llmChunks : List (List Char)) :
    List (List Char × List Source) :=
  if retrieved.isEmpty then [(fallbackMessage, [])]
  else dedupYields llmChunks []

end RAGService

namespace ChatAPI

open RAGService

/-- The SSE events emitted by the /stream endpoint. -/
inductive Event
  | message (content : List Char)
  | sources (s : List Source)
  | error (msg : String)
  | done
deriving DecidableEq, Repr

/-- The message events of the try-loop: one per yielded pair whose
text_chunk is truthy (non-empty). -/
def messageEvents (yields : List (List Char × List Source)) : List Event :=
  (yields.filter fun y => y.1 ≠ []).map fun y => Event.message y.1

/-- The sources variable after the try-loop: the last truthy
chunk_sources seen, initially empty. -/
def lastSources (yields : List (List Char × List Source)) : List Source :=
  yields.foldl (fun acc y => if y.2.isEmpty then acc else y.2) []

/-- stream_chat.event_generator: the inner async-for consumes the pairs
the RAG generator yielded; exn = some msg means the generator (or the
loop body) raised with message msg after producing exactly those pairs,
jumping to the except clause which emits an error event and a done
event.  A normal run emits a sources event only when the sources
variable is non-empty, then the done event. -/
def eventGenerator (yields : List (List Char × List Source)) (exn : Option String) :
    List Event :=
  match exn with
  | some msg => messageEvents yields ++ [.error msg, .done]
  | none =>
    messageEvents yields ++
      (if (lastSources yields).isEmpty then [] else [.sources (lastSources yields)]) ++
      [.done]

/-- The full answer_stream pipeline of a run in which generation does
not raise: retrieval result and LLM fragments in, SSE events out. -/
def answerStream (retrieved : List VectorService.RetrievedChunk)
    (llmChunks : List (List Char)) : List Event :=
  eventGenerator (generateStream retrieved llmChunks) none

end ChatAPI

namespace Splitter

/-- Modelled from the spec: the repository delegates text splitting to
the third-party RecursiveCharacterTextSplitter (configured in
IngestionService.__init__ with separators paragraph break, line break,
sentence end, word break, hard character cut); the library itself is
not part of this repository, so the splitter is modelled from spec
section 4.1.  Splitting on one separator strategy walks the text one
character at a time: the skip counter consumes the remaining characters
of a matched separator, acc accumulates the current piece (reversed),
and a match cuts a piece; the separator itself is dropped. -/
def splitOnSubGo (sep : List Char) : List Char → List Char → Nat → List (List Char)
  | [], acc, _ => [acc.reverse]
  | _ :: xs, acc, skip + 1 => splitOnSubGo sep xs acc skip
  | x :: xs, acc, 0 =>
    if sep ≠ [] ∧ PyStr.leadsWith sep (x :: xs) = true then
      acc.reverse :: splitOnSubGo sep xs [] (sep.length - 1)
    else
      splitOnSubGo sep xs (x :: acc) 0

/-- Modelled from the spec: split a text on every occurrence of a
(multi-character) separator. -/
def splitOnSub (sep : List Char) (xs : List Char) : List (List Char) :=
  splitOnSubGo sep xs [] 0

/-- Modelled from the spec: the hard character-boundary cut, fuelled
recursion.  Emit exactly max_size characters and step forward by
max_size minus overlap (guarded to stay positive so the cut always
advances).  Each round consumes one unit of fuel and at least one
character, so with fuel at least the text length the fuel-exhausted
branch is unreachable. -/
def hardCutAux (maxSize overlap : Nat) : Nat → List Char → List (List Char)
  | fuel, s =>
    if s.length ≤ maxSize then [s]
    else
      match fuel with
      | 0 => [s.take maxSize]
      | f + 1 =>
        s.take maxSize :: hardCutAux maxSize overlap f (s.drop (max 1 (maxSize - overlap)))

/-- Modelled from the spec: the hard character-boundary cut used when
no separator strategy is left. -/
def hardCut (maxSize overlap : Nat) (s : List Char) : List (List Char) :=
  hardCutAux maxSize overlap s.length s

/-- Modelled from the spec: the trailing overlap characters of the
previous merged chunk, prepended to the next chunk when it fits. -/
def overlapTail (overlap : Nat) (chunk : List Char) : List Char :=
  chunk.drop (chunk.length - overlap)

/-- Modelled from the spec: greedy merge of the pieces produced by one
separator strategy.  Pieces that fit are accumulated until adding the
next would exceed max_size; a flushed chunk donates its overlap tail to
the start of the next chunk when that still fits; an oversize piece is
re-split by the next-finer strategy (the function argument next). -/
def mergeLoop (maxSize overlap : Nat) (next : List Char → List (List Char)) :
    List (List Char) → List Char → List (List Char)
  | [], acc => if acc = [] then [] else [acc]
  | p :: ps, acc =>
    if p.length ≤ maxSize then
      if acc.length + p.length ≤ maxSize then
        mergeLoop maxSize overlap next ps (acc ++ p)
      else
        (if acc = [] then [] else [acc]) ++
          mergeLoop maxSize overlap next ps
            (if (overlapTail overlap acc).length + p.length ≤ maxSize then
              overlapTail overlap acc ++ p
            else p)
    else
      (if acc = [] then [] else [acc]) ++ next p ++ mergeLoop maxSize overlap next ps []

/-- Modelled from the spec: try the separator strategies from coarsest
to finest; with none left fall back to the hard character cut. -/
def splitChars (maxSize overlap : Nat) :
    List (List Char → List (List Char)) → List Char → List (List Char)
  | [], text => hardCut maxSize overlap text
  | f :: fs, text =>
    mergeLoop maxSize overlap (fun t => splitChars maxSize overlap fs t) (f text) []

/-- Modelled from the spec: the splitter contract.  Empty input yields
the empty sequence; text that fits yields a single chunk equal to the
input; otherwise the recursive strategy descent runs. -/
def splitList (maxSize overlap : Nat)
    (strats : List (List Char → List (List Char))) (text : List Char) :
    List (List Char) :=
  if text = [] then []
  else if text.length ≤ maxSize then [text]
  else splitChars maxSize overlap strats text

/-- The separator list configured in IngestionService.__init__, minus
the final empty separator which is the hard-cut fallback. -/
def repoSeparators : List (List Char) :=
  [['\n', '\n'], ['\n'], ['.', ' '], [' ']]

/-- The configured separator strategies. -/
def repoStrategies : List (List Char → List (List Char)) :=
  repoSeparators.map splitOnSub

/-- The repository splitter at a given size and overlap
(IngestionService.split_text_recursive with the configured separators). -/
def splitTextRecursive (chunk_size chunk_overlap : Nat) (text : List Char) :
    List (List Char) :=
  splitList chunk_size chunk_overlap repoStrategies text

end Splitter

namespace Ingestion

open VectorService
open Splitter

/-- What pdfplumber sees: either opening the binary raises, or it
yields a list of pages whose extract_text is None or some text. -/
inductive PdfInput
  | malformed (msg : String)
  | pages (texts : List (Option (List Char)))

/-- IngestionService._extract_text_from_pdf: truthy page texts are
collected and joined with a blank line; an exception from pdfplumber is
wrapped in a ValueError. -/
def extractTextFromPdf : PdfInput → Except String (List Char)
  | .malformed msg => .error ("Failed to extract text from PDF: " ++ msg)
  | .pages ts =>
    .ok (List.intercalate ['\n', '\n']
      (ts.filterMap fun t =>
        match t with
        | none => none
        | some s => if s = [] then none else some s))

/-- The result dict of IngestionService.process_document. -/
structure IngestResult where
  filename : String
  parent_chunks : Nat
  child_chunks : Nat
  status : String
deriving DecidableEq, Repr

/-- The metadata dict stored with a parent chunk. -/
def parentMeta (idx total : Nat) : Option String :=
  some ("chunk_index=" ++ toString idx ++ ",total_chunks=" ++ toString total)

/-- The metadata dict stored with a child batch. -/
def childMeta (idx : Nat) : Option String :=
  some ("parent_index=" ++ toString idx)

/-- The per-parent loop of process_document: store the parent chunk,
split it with the child splitter, store the child batch, accumulate the
child count.  Fresh parent ids come from freshId applied to the chunk
index; database-generated child ids are irrelevant here and set to 0. -/
def ingestLoop (childSize childOv : Nat) (embed : List Char → List Rat)
    (filename : String) (freshId : Nat → Nat) (total : Nat) :
    List (List Char) → Nat → Store → Nat → Store × Nat
  | [], _, st, count => (st, count)
  | chunk :: rest, idx, st, count =>
    let pid := freshId idx
    let prow : ParentRow :=
      { id := pid, document_name := filename, content := String.mk chunk,
        page_number := none, section_title := none,
        metadata := parentMeta idx total }
    let st1 : Store := { st with parents := upsertParent st.parents prow }
    let childChunks := splitTextRecursive childSize childOv chunk
    let crows : List ChildRow :=
      childChunks.map fun c =>
        { id := 0, parent_id := pid, content := String.mk c,
          embedding := embed c, metadata := childMeta idx }
    let st2 : Store := { st1 with children := st1.children ++ crows }
    ingestLoop childSize childOv embed filename freshId total rest (idx + 1) st2
      (count + childChunks.length)

/-- IngestionService.process_document: extract text (propagating the
extraction ValueError with the store untouched), split into parent
chunks, run the per-parent loop, report counts and success. -/
def processDocument (pdf : PdfInput) (filename : String)
    (parentSize parentOv childSize childOv : Nat)
    (embed : List Char → List Rat) (freshId : Nat → Nat) (st : Store) :
    Except String IngestResult × Store :=
  match extractTextFromPdf pdf with
  | .error e => (.error e, st)
  | .ok text =>
    let parentChunks := splitTextRecursive parentSize parentOv text
    let (st2, totalChildren) :=
      ingestLoop childSize childOv embed filename freshId parentChunks.length
        parentChunks 0 st 0
    (.ok { filename := filename, parent_chunks := parentChunks.length,
           child_chunks := totalChildren, status := "success" }, st2)

end Ingestion

namespace IngestionAPI

open VectorService

/-- The HTTP outcome of the upload endpoint. -/
structure UploadOutcome where
  status : Nat
  detail : Option String
  scheduled : Bool
deriving DecidableEq, Repr

/-- The suffix checked by the upload endpoint. -/
def pdfSuffix : List Char := ['.', 'p', 'd', 'f']

/-- upload_document: reject a missing/non-.pdf filename, then reject a
body over 50 MB, otherwise schedule background processing; the store is
never touched here and the task queue grows only on acceptance. -/
def uploadDocument (filename : Option (List Char)) (contentLen : Nat)
    (st : Store) (tasks : List (List Char × Nat)) :
    UploadOutcome × Store × List (List Char × Nat) :=
  match filename with
  | none => ({ status := 400, detail := some "Only PDF files are supported",
               scheduled := false }, st, tasks)
  | some name =>
    if name = [] ∨ ¬ PyStr.endsWithL (PyStr.lowerChars name) pdfSuffix then
      ({ status := 400, detail := some "Only PDF files are supported",
         scheduled := false }, st, tasks)
    else if 50 * 1024 * 1024 < contentLen then
      ({ status := 400, detail := some "File size exceeds 50MB limit",
         scheduled := false }, st, tasks)
    else
      ({ status := 202, detail := none, scheduled := true }, st,
        tasks ++ [(name, contentLen)])

end IngestionAPI

namespace Demo

open VectorService

/-- A parent row used in concrete checks. -/
def p1 : ParentRow :=
  { id := 1, document_name := "manual.pdf", content := "parent one",
    page_number := none, section_title := none, metadata := none }

/-- A second parent row used in concrete checks. -/
def p2 : ParentRow :=
  { id := 2, document_name := "manual.pdf", content := "parent two",
    page_number := none, section_title := none, metadata := none }

/-- The single child of p1; its embedding is far from the query. -/
def c1 : ChildRow :=
  { id := 10, parent_id := 1, content := "child one", embedding := [1],
    metadata := none }

/-- The single child of p2; its embedding is close to the query. -/
def c2 : ChildRow :=
  { id := 20, parent_id := 2, content := "child two", embedding := [2],
    metadata := none }

/-- A store with two parents, one child each. -/
def demoStore : Store := { parents := [p1, p2], children := [c1, c2] }

/-- A cosine-distance assignment for the demo query: the child of
parent 1 is at distance 1 (similarity 0), the child of parent 2 at
distance 0 (similarity 1). -/
def demoDist : List Rat → Rat := fun e => if e = [1] then 1 else 0

/-- An empty store. -/
def emptyStore : Store := { parents := [], children := [] }

/-- A retrieval result row used in concrete stream checks. -/
def demoRetrieved : RetrievedChunk :=
  { id := 2, document_name := "manual.pdf", content := "parent two",
    page_number := none, section_title := none, metadata := none,
    similarity := 1 }

/-- An initialized service whose embedding capability always succeeds
with one-dimensional embeddings. -/
def okService : Service :=
  { pool := true, embeddings := some fun chunks => .ok (chunks.map fun _ => [1]) }

/-- A re-insert of p1: the same id with new content and metadata, and
deliberately different provenance fields (which the upsert must not
copy). -/
def p1v2 : ParentRow :=
  { id := 1, document_name := "other.pdf", content := "parent one updated",
    page_number := some 9, section_title := some "S", metadata := some "m" }

end Demo

namespace VectorService

/-- Every row kept by the DISTINCT ON scan has a key outside the seen
set. -/
theorem distinctByAux_key_not_seen {α : Type _} (key : α → Nat) :
    ∀ (l : List α) (seen : List Nat) (y : α),
      y ∈ distinctByAux key l seen → key y ∉ seen := by
  intro l
  induction l with
  | nil => intro seen y hy; simp [distinctByAux] at hy
  | cons x xs ih =>
    intro seen y hy
    rw [distinctByAux] at hy
    split at hy
    · exact ih seen y hy
    · rcases List.mem_cons.mp hy with rfl | hy2
      · assumption
      · intro hseen
        exact ih (key x :: seen) y hy2 (List.mem_cons_of_mem _ hseen)

/-- The keys of the DISTINCT ON scan are pairwise distinct. -/
theorem distinctByAux_keys_nodup {α : Type _} (key : α → Nat) :
    ∀ (l : List α) (seen : List Nat),
      ((distinctByAux key l seen).map key).Nodup := by
  intro l
  induction l with
  | nil => intro seen; simp [distinctByAux]
  | cons x xs ih =>
    intro seen
    rw [distinctByAux]
    split
    · exact ih seen
    · simp only [List.map_cons, List.nodup_cons]
      refine ⟨?_, ih (key x :: seen)⟩
      intro hmem
      rcases List.mem_map.mp hmem with ⟨y, hy, hkey⟩
      exact distinctByAux_key_not_seen key xs (key x :: seen) y hy
        (hkey ▸ List.mem_cons_self _ _)

end VectorService

namespace VectorService

/-- C2: for every store state, every query-distance assignment and
every k, the result of retrieve_parent_chunks never contains two
results with the same parent id: DISTINCT ON (p.id) keeps one row per
parent and LIMIT only shortens the list. -/
theorem retrieve_no_duplicate_parents (st : Store) (dist : List Rat → Rat) (k : Nat) :
    ((retrieveParentChunks st dist k).map fun rc => rc.id).Nodup := by
  have h : ∀ (l : List (ParentRow × ChildRow)) (k : Nat),
      (((distinctBy (fun r => r.1.id) l).take k).map fun r => r.1.id).Nodup := by
    intro l k
    have hd := distinctByAux_keys_nodup (fun r : ParentRow × ChildRow => r.1.id) l []
    have hsub : List.Sublist
        (((distinctBy (fun r => r.1.id) l).take k).map fun r => r.1.id)
        ((distinctBy (fun r => r.1.id) l).map fun r => r.1.id) :=
      List.Sublist.map _ (List.take_sublist _ _)
    exact hd.sublist hsub
  have h2 : retrieveParentChunks st dist k =
      ((distinctBy (fun r : ParentRow × ChildRow => r.1.id)
          (sortBy (rowLE dist) (joinedRows st))).take k).map (fun r =>
        { id := r.1.id, document_name := r.1.document_name, content := r.1.content,
          page_number := r.1.page_number, section_title := r.1.section_title,
          metadata := r.1.metadata, similarity := 1 - dist r.2.embedding }) := rfl
  rw [h2, List.map_map]
  exact h (sortBy (rowLE dist) (joinedRows st)) k

/-- C1: the code evaluated at a failing input.  The store holds parent
1 (best-child similarity 0) and parent 2 (best-child similarity 1).
With k = 1 the result is parent 1, not the parent whose best child is
most similar; with k = 2 the results come in ascending parent-id order
(0 then 1), not in descending similarity: the LIMIT of the DISTINCT ON
query cuts in parent-id order, so parent id is the primary sort key of
the output, not a tie-break. -/
theorem retrieve_ranked_by_parent_id_not_similarity :
    (retrieveParentChunks Demo.demoStore Demo.demoDist 1).map (fun rc => rc.id) = [1] ∧
    (retrieveParentChunks Demo.demoStore Demo.demoDist 2).map
        (fun rc => (rc.id, rc.similarity)) = [(1, 0), (2, 1)] := by
  constructor
  · decide
  · norm_num [retrieveParentChunks, sortBy, insertSorted, rowLE, joinedRows,
      distinctBy, distinctByAux, Demo.demoStore, Demo.demoDist,
      Demo.p1, Demo.p2, Demo.c1, Demo.c2]

end VectorService

namespace ChatAPI

/-- C3: the code evaluated at a failing input.  Retrieval resolves with
one result and generation emits one delta, yet the event sequence of
the stream contains no sources event at all: generate_stream yields
every chunk with an empty sources list (the sources list it builds is
never yielded), so the endpoint, which emits the sources event only
when it saw a non-empty one, never emits it. -/
theorem answerStream_emits_no_sources_event :
    answerStream [Demo.demoRetrieved] [['H', 'i']] =
      [Event.message ['H', 'i'], Event.done] := by
  decide

/-- Message events never contain the terminal event. -/
theorem messageEvents_count_done (yields : List (List Char × List RAGService.Source)) :
    (messageEvents yields).count Event.done = 0 := by
  rw [List.count_eq_zero]
  intro hmem
  rcases List.mem_map.mp hmem with ⟨y, _, hy⟩
  exact Event.noConfusion hy

/-- C4: for every run of the streaming endpoint, also one in which the
generator raised after yielding a prefix, the event sequence ends in
the terminal done event, contains the terminal event exactly once, and
on failure consists of the already-emitted deltas followed by an error
event carrying the message and then the terminal event. -/
theorem eventGenerator_terminal_protocol
    (yields : List (List Char × List RAGService.Source)) (exn : Option String) :
    (eventGenerator yields exn).getLast? = some Event.done ∧
    (eventGenerator yields exn).count Event.done = 1 ∧
    (∀ msg, exn = some msg →
      eventGenerator yields exn = messageEvents yields ++ [Event.error msg, Event.done]) := by
  cases exn with
  | some msg =>
    refine ⟨?_, ?_, ?_⟩
    · show (messageEvents yields ++ [Event.error msg, Event.done]).getLast? = some Event.done
      rw [show messageEvents yields ++ [Event.error msg, Event.done] =
          (messageEvents yields ++ [Event.error msg]) ++ [Event.done] by simp]
      exact List.getLast?_concat _
    · show (messageEvents yields ++ [Event.error msg, Event.done]).count Event.done = 1
      simp [List.count_append, messageEvents_count_done, List.count_cons]
    · intro msg2 h
      cases h
      rfl
  | none =>
    refine ⟨?_, ?_, fun msg h => Option.noConfusion h⟩
    · show (messageEvents yields ++
          (if (lastSources yields).isEmpty then [] else [Event.sources (lastSources yields)]) ++
          [Event.done]).getLast? = some Event.done
      rw [show messageEvents yields ++
          (if (lastSources yields).isEmpty then [] else [Event.sources (lastSources yields)]) ++
          [Event.done] =
          (messageEvents yields ++
            (if (lastSources yields).isEmpty then [] else [Event.sources (lastSources yields)])) ++
          [Event.done] by simp]
      exact List.getLast?_concat _
    · show (messageEvents yields ++
          (if (lastSources yields).isEmpty then [] else [Event.sources (lastSources yields)]) ++
          [Event.done]).count Event.done = 1
      by_cases hs : (lastSources yields).isEmpty <;>
        simp [hs, List.count_append, messageEvents_count_done, List.count_cons]

/-- Witness for C4 at a concrete failing run: two deltas were emitted,
then the generator raised. -/
theorem eventGenerator_terminal_protocol_witness :
    eventGenerator [(['a'], []), (['b'], [])] (some "boom") =
      messageEvents [(['a'], []), (['b'], [])] ++ [Event.error "boom", Event.done] ∧
    messageEvents [(['a'], []), (['b'], [])] =
      [Event.message ['a'], Event.message ['b']] := by
  refine ⟨(eventGenerator_terminal_protocol [(['a'], []), (['b'], [])]
    (some "boom")).2.2 "boom" rfl, by decide⟩

end ChatAPI

namespace VectorService

/-- A transaction that ran to completion wrote exactly the whole batch. -/
theorem runInserts_complete (rows : List ChildRow) :
    ∀ (i : Nat) (failAt : Option Nat) (ws : List ChildRow),
      runInserts rows i failAt = some ws → ws = rows := by
  induction rows with
  | nil =>
    intro i failAt ws h
    rw [runInserts] at h
    exact (Option.some.inj h).symm
  | cons r rs ih =>
    intro i failAt ws h
    rw [runInserts] at h
    split at h
    · exact absurd h (by simp)
    · rcases Option.map_eq_some'.mp h with ⟨ws2, hws2, hcons⟩
      rw [← hcons, ih (i + 1) failAt ws2 hws2]

/-- C5: store_child_chunks is atomic.  When the call succeeds the
whole embedded batch is appended to the child table; when it fails for
any reason (missing capability, embedding failure, missing pool, or an
INSERT raising anywhere in the batch) the visible store is exactly the
original one — no partially-written batch. -/
theorem storeChildChunks_atomic (svc : Service) (st : Store) (pid : Nat)
    (chunks : List String) (meta : Option String) (ids : List Nat)
    (failAt : Option Nat) :
    ((storeChildChunksCall svc st pid chunks meta ids failAt).1 = none →
      ∃ embed embs, svc.embeddings = some embed ∧ embed chunks = .ok embs ∧
        (storeChildChunksCall svc st pid chunks meta ids failAt).2 =
          { st with children := st.children ++ childBatchRows pid meta ids chunks embs }) ∧
    ((storeChildChunksCall svc st pid chunks meta ids failAt).1 ≠ none →
      (storeChildChunksCall svc st pid chunks meta ids failAt).2 = st) := by
  cases hemb : svc.embeddings with
  | none =>
    simp only [storeChildChunksCall, hemb]
    exact ⟨fun h => Option.noConfusion h, fun _ => trivial⟩
  | some embed =>
    cases hres : embed chunks with
    | error e =>
      simp only [storeChildChunksCall, hemb, hres]
      exact ⟨fun h => Option.noConfusion h, fun _ => trivial⟩
    | ok embs =>
      cases hpool : svc.pool with
      | false =>
        simp only [storeChildChunksCall, hemb, hres, hpool, Bool.false_eq_true, if_false]
        exact ⟨fun h => Option.noConfusion h, fun _ => trivial⟩
      | true =>
        cases hrun : runInserts (childBatchRows pid meta ids chunks embs) 0 failAt with
        | none =>
          simp only [storeChildChunksCall, hemb, hres, hpool, if_true, hrun]
          exact ⟨fun h => Option.noConfusion h, fun _ => trivial⟩
        | some written =>
          simp only [storeChildChunksCall, hemb, hres, hpool, if_true, hrun]
          refine ⟨fun _ => ⟨embed, embs, rfl, hres, ?_⟩, fun h => absurd rfl h⟩
          rw [runInserts_complete _ 0 failAt written hrun]

/-- Witness for C5: a successful two-chunk batch is appended whole, and
the same batch with the first INSERT failing leaves the store exactly
unchanged. -/
theorem storeChildChunks_atomic_witness :
    (storeChildChunksCall Demo.okService Demo.emptyStore 7 ["c one", "c two"]
        none [100, 101] none).2 =
      { Demo.emptyStore with children :=
          (Demo.emptyStore.children ++
            childBatchRows 7 none [100, 101] ["c one", "c two"] [[1], [1]]) } ∧
    (storeChildChunksCall Demo.okService Demo.emptyStore 7 ["c one", "c two"]
        none [100, 101] (some 0)).2 = Demo.emptyStore := by
  obtain ⟨embed, embs, hsvc, hembs, hst⟩ :=
    (storeChildChunks_atomic Demo.okService Demo.emptyStore 7 ["c one", "c two"]
      none [100, 101] none).1 rfl
  have hembed : (fun chunks : List String =>
      (Except.ok (chunks.map fun _ => ([1] : List Rat)) :
        Except String (List (List Rat)))) = embed := Option.some.inj hsvc
  rw [← hembed] at hembs
  have hembs2 : ([[1], [1]] : List (List Rat)) = embs := Except.ok.inj hembs
  rw [← hembs2] at hst
  exact ⟨hst, (storeChildChunks_atomic Demo.okService Demo.emptyStore 7
    ["c one", "c two"] none [100, 101] (some 0)).2 (by decide)⟩

/-- C7: the code evaluated at a failing input.  store_parent_chunk on a
completely uninitialized service does not fail with a distinguishable
not-initialized error: it dies with the AttributeError of the
self.pool.acquire null dereference (and delete_document behaves the
same way), because only store_child_chunks and retrieve_parent_chunks
carry an initialization check, and that check covers only the embedding
capability. -/
theorem storeParentChunk_uninit_null_dereference :
    (storeParentChunkCall uninitService [] Demo.p1).1 =
      some (PyError.attributeError noneTypeMsg) ∧
    (deleteDocumentCall uninitService Demo.emptyStore "manual.pdf").1 =
      some (PyError.attributeError noneTypeMsg) := by
  exact ⟨rfl, rfl⟩

/-- C7 (amended): operations that consult the embedding capability
(store_child_chunks, retrieve_parent_chunks) fail fast with the
distinguishable RuntimeError when it is missing; the pool-only
operations (store_parent_chunk, delete_document) perform no
initialization check and fail with a null-dereference AttributeError
when the pool is missing. -/
theorem uninitialized_service_behavior (svc : Service) (st : Store)
    (prs : List ParentRow) (row : ParentRow) (pid : Nat) (chunks : List String)
    (meta : Option String) (ids : List Nat) (failAt : Option Nat)
    (dist : List Rat → Rat) (k : Nat) (dn : String) :
    (svc.embeddings = none →
      (storeChildChunksCall svc st pid chunks meta ids failAt).1 =
        some (PyError.runtimeError "Embeddings not initialized") ∧
      (retrieveCall svc st dist k).1 =
        some (PyError.runtimeError "Embeddings not initialized")) ∧
    (svc.pool = false →
      (storeParentChunkCall svc prs row).1 = some (PyError.attributeError noneTypeMsg) ∧
      (deleteDocumentCall svc st dn).1 = some (PyError.attributeError noneTypeMsg)) := by
  constructor
  · intro hemb
    constructor
    · unfold storeChildChunksCall
      rw [hemb]
    · unfold retrieveCall
      rw [hemb]
  · intro hpool
    constructor
    · unfold storeParentChunkCall
      rw [hpool]
      simp
    · unfold deleteDocumentCall
      rw [hpool]
      simp

/-- Witness for C7 (amended) on the uninitialized service. -/
theorem uninitialized_service_behavior_witness :
    ((storeChildChunksCall uninitService Demo.emptyStore 1 ["c"] none [5] none).1 =
        some (PyError.runtimeError "Embeddings not initialized") ∧
      (retrieveCall uninitService Demo.emptyStore (fun _ => 0) 5).1 =
        some (PyError.runtimeError "Embeddings not initialized")) ∧
    ((storeParentChunkCall uninitService [] Demo.p2).1 =
        some (PyError.attributeError noneTypeMsg) ∧
      (deleteDocumentCall uninitService Demo.emptyStore "m.pdf").1 =
        some (PyError.attributeError noneTypeMsg)) :=
  ⟨(uninitialized_service_behavior uninitService Demo.emptyStore [] Demo.p2 1 ["c"]
      none [5] none (fun _ => 0) 5 "m.pdf").1 rfl,
    (uninitialized_service_behavior uninitService Demo.emptyStore [] Demo.p2 1 ["c"]
      none [5] none (fun _ => 0) 5 "m.pdf").2 rfl⟩

/-- C9: re-inserting a parent row with an id already present replaces
exactly the content and metadata of that row, keeps its document_name,
page_number and section_title, touches no other row, and leaves the
sequence of ids of the table unchanged (in particular no duplicate row
is created). -/
theorem upsertParent_reinsert_same_id (st : List ParentRow) (p r : ParentRow)
    (hmem : r ∈ st) (hid : r.id = p.id) :
    ((upsertParent st p).map fun q => q.id) = (st.map fun q => q.id) ∧
    ({ r with content := p.content, metadata := p.metadata } : ParentRow) ∈ upsertParent st p ∧
    (∀ q ∈ st, q.id ≠ p.id → q ∈ upsertParent st p) := by
  have hany : (st.any fun q => q.id = p.id) = true := by
    rw [List.any_eq_true]
    exact ⟨r, hmem, by simp [hid]⟩
  unfold upsertParent
  rw [if_pos hany]
  refine ⟨?_, ?_, ?_⟩
  · rw [List.map_map]
    refine List.map_congr_left fun q _ => ?_
    by_cases hq : q.id = p.id <;> simp [hq]
  · have := List.mem_map_of_mem
      (fun q : ParentRow =>
        if q.id = p.id then { q with content := p.content, metadata := p.metadata } else q)
      hmem
    simpa [hid] using this
  · intro q hq hqid
    have := List.mem_map_of_mem
      (fun q : ParentRow =>
        if q.id = p.id then { q with content := p.content, metadata := p.metadata } else q)
      hq
    simpa [hqid] using this

/-- Witness for C9: re-inserting id 1 with new content, metadata and
different provenance fields updates content and metadata only. -/
theorem upsertParent_reinsert_same_id_witness :
    ((upsertParent [Demo.p1, Demo.p2] Demo.p1v2).map fun q => q.id) =
      ([Demo.p1, Demo.p2].map fun q => q.id) ∧
    ({ Demo.p1 with content := Demo.p1v2.content, metadata := Demo.p1v2.metadata } :
      ParentRow) ∈ upsertParent [Demo.p1, Demo.p2] Demo.p1v2 ∧
    Demo.p2 ∈ upsertParent [Demo.p1, Demo.p2] Demo.p1v2 := by
  obtain ⟨h1, h2, h3⟩ :=
    upsertParent_reinsert_same_id [Demo.p1, Demo.p2] Demo.p1v2 Demo.p1
      (List.mem_cons_self _ _) rfl
  exact ⟨h1, h2, h3 Demo.p2
    (List.mem_cons_of_mem Demo.p1 (List.mem_cons_self Demo.p2 [])) (by decide)⟩

end VectorService

namespace Splitter

/-- The hard cut only ever emits the remaining text when it fits, or a
take of max_size characters. -/
theorem hardCutAux_bound (maxSize overlap : Nat) :
    ∀ (fuel : Nat) (s : List Char), ∀ c ∈ hardCutAux maxSize overlap fuel s,
      c.length ≤ maxSize := by
  intro fuel
  induction fuel with
  | zero =>
    intro s c hc
    rw [hardCutAux] at hc
    split at hc
    · next h =>
      rw [List.mem_singleton] at hc
      exact hc ▸ h
    · rw [List.mem_singleton] at hc
      subst hc
      simp only [List.length_take]
      exact Nat.min_le_left _ _
  | succ f ih =>
    intro s c hc
    rw [hardCutAux] at hc
    split at hc
    · next h =>
      rw [List.mem_singleton] at hc
      exact hc ▸ h
    · rcases List.mem_cons.mp hc with rfl | hc2
      · simp only [List.length_take]
        exact Nat.min_le_left _ _
      · exact ih _ c hc2

/-- Every chunk of the greedy merge is bounded by max_size, provided
the running accumulator is bounded and the finer strategy only produces
bounded chunks. -/
theorem mergeLoop_bound (maxSize overlap : Nat)
    (next : List Char → List (List Char))
    (hnext : ∀ p, ∀ c ∈ next p, c.length ≤ maxSize) :
    ∀ (ps : List (List Char)) (acc : List Char), acc.length ≤ maxSize →
      ∀ c ∈ mergeLoop maxSize overlap next ps acc, c.length ≤ maxSize := by
  intro ps
  induction ps with
  | nil =>
    intro acc hacc c hc
    rw [mergeLoop] at hc
    split at hc
    · simp at hc
    · rw [List.mem_singleton] at hc
      exact hc ▸ hacc
  | cons p ps ih =>
    intro acc hacc c hc
    rw [mergeLoop] at hc
    by_cases h1 : p.length ≤ maxSize
    · rw [if_pos h1] at hc
      by_cases h2 : acc.length + p.length ≤ maxSize
      · rw [if_pos h2] at hc
        refine ih (acc ++ p) ?_ c hc
        rw [List.length_append]
        exact h2
      · rw [if_neg h2] at hc
        rcases List.mem_append.mp hc with hcl | hcr
        · by_cases hacc2 : acc = []
          · rw [if_pos hacc2] at hcl
            simp at hcl
          · rw [if_neg hacc2, List.mem_singleton] at hcl
            exact hcl ▸ hacc
        · by_cases hov : (overlapTail overlap acc).length + p.length ≤ maxSize
          · rw [if_pos hov] at hcr
            refine ih _ ?_ c hcr
            rw [List.length_append]
            exact hov
          · rw [if_neg hov] at hcr
            exact ih p h1 c hcr
    · rw [if_neg h1] at hc
      rcases List.mem_append.mp hc with hcl | hcr
      · rcases List.mem_append.mp hcl with hcll | hclr
        · by_cases hacc2 : acc = []
          · rw [if_pos hacc2] at hcll
            simp at hcll
          · rw [if_neg hacc2, List.mem_singleton] at hcll
            exact hcll ▸ hacc
        · exact hnext p c hclr
      · exact ih [] (Nat.zero_le _) c hcr

/-- Every chunk of the strategy descent is bounded by max_size,
whatever the separator strategies are. -/
theorem splitChars_bound (maxSize overlap : Nat) :
    ∀ (strats : List (List Char → List (List Char))) (text : List Char),
      ∀ c ∈ splitChars maxSize overlap strats text, c.length ≤ maxSize := by
  intro strats
  induction strats with
  | nil =>
    intro text c hc
    rw [splitChars] at hc
    exact hardCutAux_bound maxSize overlap text.length text c hc
  | cons f fs ih =>
    intro text c hc
    rw [splitChars] at hc
    exact mergeLoop_bound maxSize overlap _ (fun p c2 hc2 => ih p c2 hc2)
      (f text) [] (Nat.zero_le _) c hc

/-- C8: for non-empty text and a valid configuration (positive
max_size, overlap below max_size) every chunk produced by the
recursive splitter with the configured separators has length at most
max_size, also when no separator occurs (hard character cut). -/
theorem splitTextRecursive_chunk_length_le (size ov : Nat) (text : List Char)
    (hne : text ≠ []) (hpos : 0 < size) (hov : ov < size) :
    ∀ c ∈ splitTextRecursive size ov text, c.length ≤ size := by
  intro c hc
  rw [splitTextRecursive, splitList, if_neg hne] at hc
  split at hc
  · next h =>
    rw [List.mem_singleton] at hc
    exact hc ▸ h
  · exact splitChars_bound size ov repoStrategies text c hc

/-- Witness for C8: a five-character text with no separators at size 3,
overlap 1; the hard cut produces the chunk aaa, whose length obeys the
bound. -/
theorem splitTextRecursive_chunk_length_le_witness :
    (['a', 'a', 'a'] : List Char).length ≤ 3 ∧
    ['a', 'a', 'a'] ∈ splitTextRecursive 3 1 ['a', 'a', 'a', 'a', 'a'] :=
  ⟨splitTextRecursive_chunk_length_le 3 1 ['a', 'a', 'a', 'a', 'a'] (by decide)
      (by decide) (by decide) ['a', 'a', 'a'] (by decide), by decide⟩

end Splitter

namespace Ingestion

/-- C6 counterexample: a readable PDF whose pages contain no usable
text (one page None, one empty).  process_document does not fail before
splitting as claimed: it runs the whole pipeline and reports success
with zero parent and child chunks (the store is unchanged only because
there was nothing to write). -/
theorem processDocument_no_text_returns_success :
    processDocument (.pages [none, some []]) "doc.pdf" 2000 200 300 50
        (fun _ => []) (fun i => i) Demo.emptyStore =
      (.ok { filename := "doc.pdf", parent_chunks := 0, child_chunks := 0,
             status := "success" }, Demo.emptyStore) := rfl

/-- C6 (amended): a malformed document makes process_document fail with
the wrapped extraction ValueError before any splitting or store write,
leaving the store unchanged; extraction that succeeds with no usable
text does not fail — the pipeline runs to completion and returns
success with zero parent and zero child chunks, also leaving the store
unchanged. -/
theorem processDocument_extraction_paths (pdf : PdfInput) (filename : String)
    (psz pov csz cov : Nat) (embed : List Char → List Rat) (fid : Nat → Nat)
    (st : VectorService.Store) :
    (∀ m, pdf = .malformed m →
      processDocument pdf filename psz pov csz cov embed fid st =
        (.error ("Failed to extract text from PDF: " ++ m), st)) ∧
    (extractTextFromPdf pdf = .ok [] →
      processDocument pdf filename psz pov csz cov embed fid st =
        (.ok { filename := filename, parent_chunks := 0, child_chunks := 0,
               status := "success" }, st)) := by
  constructor
  · intro m hm
    subst hm
    rfl
  · intro h
    unfold processDocument
    rw [h]
    rfl

/-- Witness for C6 (amended) at a malformed input and at an input with
one empty page. -/
theorem processDocument_extraction_paths_witness :
    processDocument (.malformed "bad header") "doc.pdf" 2000 200 300 50
        (fun _ => []) (fun i => i) Demo.emptyStore =
      (.error ("Failed to extract text from PDF: " ++ "bad header"), Demo.emptyStore) ∧
    processDocument (.pages [some []]) "doc.pdf" 2000 200 300 50
        (fun _ => []) (fun i => i) Demo.emptyStore =
      (.ok { filename := "doc.pdf", parent_chunks := 0, child_chunks := 0,
             status := "success" }, Demo.emptyStore) :=
  ⟨(processDocument_extraction_paths (.malformed "bad header") "doc.pdf" 2000 200 300 50
      (fun _ => []) (fun i => i) Demo.emptyStore).1 "bad header" rfl,
    (processDocument_extraction_paths (.pages [some []]) "doc.pdf" 2000 200 300 50
      (fun _ => []) (fun i => i) Demo.emptyStore).2 rfl⟩

end Ingestion

namespace IngestionAPI

/-- C10: an upload whose filename is missing or does not end in .pdf
after lowercasing, or whose content exceeds 50 MB, is rejected with
HTTP 400 and has no side effects: the store is untouched and no
background processing task is scheduled. -/
theorem upload_rejects_invalid_without_side_effects (filename : Option (List Char))
    (n : Nat) (st : VectorService.Store) (tasks : List (List Char × Nat))
    (h : (∀ s, filename = some s →
            PyStr.endsWithL (PyStr.lowerChars s) pdfSuffix = false) ∨
         50 * 1024 * 1024 < n) :
    (uploadDocument filename n st tasks).1.status = 400 ∧
    (uploadDocument filename n st tasks).2.1 = st ∧
    (uploadDocument filename n st tasks).2.2 = tasks := by
  cases filename with
  | none => exact ⟨rfl, rfl, rfl⟩
  | some name =>
    have hstep : uploadDocument (some name) n st tasks =
        if name = [] ∨ ¬ PyStr.endsWithL (PyStr.lowerChars name) pdfSuffix then
          ({ status := 400, detail := some "Only PDF files are supported",
             scheduled := false }, st, tasks)
        else if 50 * 1024 * 1024 < n then
          ({ status := 400, detail := some "File size exceeds 50MB limit",
             scheduled := false }, st, tasks)
        else ({ status := 202, detail := none, scheduled := true }, st,
          tasks ++ [(name, n)]) := rfl
    by_cases hname : name = [] ∨ ¬ PyStr.endsWithL (PyStr.lowerChars name) pdfSuffix
    · rw [hstep, if_pos hname]
      exact ⟨rfl, rfl, rfl⟩
    · have hbig : 50 * 1024 * 1024 < n := by
        rcases h with hleft | hbig
        · refine absurd (Or.inr fun htrue => ?_) hname
          rw [hleft name rfl] at htrue
          exact Bool.noConfusion htrue
        · exact hbig
      rw [hstep, if_neg hname, if_pos hbig]
      exact ⟨rfl, rfl, rfl⟩

/-- Witness for C10: uploading man.txt (3 bytes) is rejected with 400
and leaves store and task queue unchanged. -/
theorem upload_rejects_invalid_witness :
    (uploadDocument (some ['m', 'a', 'n', '.', 't', 'x', 't']) 3
        Demo.emptyStore []).1.status = 400 ∧
    (uploadDocument (some ['m', 'a', 'n', '.', 't', 'x', 't']) 3
        Demo.emptyStore []).2.1 = Demo.emptyStore ∧
    (uploadDocument (some ['m', 'a', 'n', '.', 't', 'x', 't']) 3
        Demo.emptyStore []).2.2 = [] :=
  upload_rejects_invalid_without_side_effects
    (some ['m', 'a', 'n', '.', 't', 'x', 't']) 3 Demo.emptyStore []
    (Or.inl fun s hs => by cases hs; decide)

end IngestionAPI
